import Mathlib

/-!
Verification of the Monty interpreter (ex3ndr/monty) against its
natural-language specification.

The development has two parts, mirroring the repository layout:

* `Monty.Proto` — shallow embedding of the early prototype interpreter in
  `src/object.rs` / `src/run.rs` (the tagged `Object` union, its arithmetic
  and equality operations, and the name-lookup arm of `Frame::execute_expr`).
* `Monty.Run` — shallow embedding of the public run/REPL interface in
  `crates/monty/src/run.rs` (`Executor::prepare_namespaces`,
  `frame_exit_to_object`, `Executor::run`, `MontyRepl::feed`,
  `MontyRepl::ensure_global_namespace_size`, `FutureSnapshot::resume` and
  `ReplFutureSnapshot::resume`).

Machine integers (Rust `i64`) are embedded as `Int` with explicit reduction
modulo `2 ^ 64` where the source performs overflowing machine arithmetic.
Rust `f64` payloads are never inspected by any property proved here, so the
float payload type and its primitive operations (`%`, `as f64`, `==`) are
carried as parameters (`FloatOps`) instead of being modelled bit-exactly.
-/

namespace Monty

/-- A single-quote character as a string, used to spell out the quoting that
Rust `format!` calls in the source produce in error messages. -/
def sq : String := String.singleton (Char.ofNat 39)

namespace Proto

/-- Lower bound of Rust `i64`. -/
def i64Min : Int := -(2 ^ 63)

/-- Upper bound of Rust `i64`. -/
def i64Max : Int := 2 ^ 63 - 1

/-- Predicate holding when a mathematical integer is representable as a
Rust `i64`. -/
def fitsI64 (n : Int) : Prop := i64Min ≤ n ∧ n ≤ i64Max

instance (n : Int) : Decidable (fitsI64 n) := by
  unfold fitsI64; infer_instance

/-- Reduction of a mathematical integer to 64-bit two's complement: the value
a Rust release build stores after an overflowing `i64` operation.  For `n`
already in range this is the identity. -/
def wrap64 (n : Int) : Int := (n + 2 ^ 63) % 2 ^ 64 - 2 ^ 63

/-- The `Object` union from `src/object.rs` (the prototype interpreter's value type).
`F` stands for the Rust `f64` payload and `E` for `crate::exceptions::Exception`
(whose definition is not part of the sources; no operation embedded here
inspects it). -/
inductive Object (F E : Type) where
  | Undefined
  | Ellipsis
  | None
  | True
  | False
  | Int (v : Int)
  | Bytes (v : List Nat)
  | Float (v : F)
  | Str (v : String)
  | List (v : List (Object F E))
  | Tuple (v : List (Object F E))
  | Range (v : Int)
  | Exc (e : E)
deriving Repr

/-- Embedding of `Object::add` from `src/object.rs` lines 87–98.  The `Int` arm performs
Rust `v1 + v2` on `i64`, which does not check for overflow: a release build
stores the wrapped two's-complement value (`wrap64`), and no error path
exists. -/
def Object.add {F E : Type} : Object F E → Object F E → Option (Object F E)
  | .Int v1, .Int v2 => some (.Int (wrap64 (v1 + v2)))
  | .Str v1, .Str v2 => some (.Str (v1 ++ v2))
  | .List v1, .List v2 => some (.List (v1 ++ v2))
  | _, _ => none

/-- Embedding of `Object::add_mut` from `src/object.rs` lines 100–114.  `Ok` carries the
updated receiver (`*v1 += v2` etc.); the catch-all arm returns `Err(other)`,
giving the unconsumed right operand back to the caller. -/
def Object.add_mut {F E : Type} : Object F E → Object F E → Except (Object F E) (Object F E)
  | .Int v1, .Int v2 => .ok (.Int (wrap64 (v1 + v2)))
  | .Str v1, .Str v2 => .ok (.Str (v1 ++ v2))
  | .List v1, .List v2 => .ok (.List (v1 ++ v2))
  | _, other => .error other

mutual

/-- Embedding of `Object::py_eq` from `src/object.rs` lines 124–142, with the match arms in
source order: `Undefined` is unequal to everything (itself included), `True`
and `False` compare equal to `Int(1)` and `Int(0)` in both orders, lists and
tuples compare elementwise via `vecs_equal`, and all remaining pairs are
unequal. -/
def Object.py_eq {F E : Type} : Object F E → Object F E → Bool
  | .Undefined, _ => false
  | _, .Undefined => false
  | .Int v1, .Int v2 => v1 == v2
  | .Str v1, .Str v2 => v1 == v2
  | .List v1, .List v2 => vecsEqual v1 v2
  | .Tuple v1, .Tuple v2 => vecsEqual v1 v2
  | .Range v1, .Range v2 => v1 == v2
  | .True, .True => true
  | .True, .Int v2 => 1 == v2
  | .Int v1, .True => v1 == 1
  | .False, .False => true
  | .False, .Int v2 => 0 == v2
  | .Int v1, .False => v1 == 0
  | .None, .None => true
  | _, _ => false

/-- Embedding of `vecs_equal` from `src/object.rs` lines 230–241: elementwise `py_eq`,
false on length mismatch. -/
def vecsEqual {F E : Type} : List (Object F E) → List (Object F E) → Bool
  | [], [] => true
  | v1 :: r1, v2 :: r2 => v1.py_eq v2 && vecsEqual r1 r2
  | _, _ => false

end

/-- The error message `format!("name '{}' is not defined", id)` produced by
the `Expr::Name` arm of `Frame::execute_expr` in `src/run.rs`. -/
def nameNotDefined (id : Nat) : String :=
  "name " ++ sq ++ toString id ++ sq ++ " is not defined"

/-- The `Expr::Name` arm of `Frame::execute_expr` from `src/run.rs` lines
54–63: slot lookup in the frame's namespace.  An absent slot and a slot
holding `Undefined` both yield the name error; any other stored object is
returned unchanged (the source returns `Cow::Borrowed` of the slot). -/
def executeExprName {F E : Type} (ns : List (Object F E)) (id : Nat) :
    Except String (Object F E) :=
  match ns[id]? with
  | some obj =>
    match obj with
    | .Undefined => .error (nameNotDefined id)
    | _ => .ok obj
  | none => .error (nameNotDefined id)

end Proto

namespace Run

/-- Model of the exception values flowing through `crates/monty/src/run.rs`
(`MontyException` and the internal `RunError`).  Modelled from the spec:
`exception_public.rs` / `exception_private.rs` are not under `src/`; §7 says
every error carries a kind and a message.  `run.rs` itself constructs only
`MontyException::runtime_error(..)` and `ExcType::not_implemented(..)`; all
other exceptions are collapsed into `other`. -/
inductive Exc (ε : Type) where
  | runtimeError (msg : String)
  | notImplemented (msg : String)
  | other (e : ε)

/-- Model of `RunError::into_python_exception(interns, code)`.  Modelled from
the spec: the conversion lives in `exception_private.rs`, not under `src/`;
§7's propagation text says the raised error's kind and message become the
final Python-level exception unchanged, so on this model the conversion is
the identity. -/
def intoPythonException {ε : Type} (e : Exc ε) : Exc ε := e

/-- The `Value` union of `crates/monty/src/value.rs` as seen from `run.rs`.
Modelled from the spec: `value.rs` is not under `src/`; §3 lists the
variants.  Only `Undefined`, `ExtFunction` and `ExternalFuture` are
constructed or matched by `run.rs` itself; every other variant (None, Bool,
Int, Str, Ref, …) is collapsed into the payload constructor `Conv`. -/
inductive Value (α : Type) where
  | Undefined
  | ExtFunction (id : Nat)
  | ExternalFuture (callId : Nat)
  | Conv (v : α)

/-- The `FrameExit` union returned by the VM's inner loop (declared in the
`bytecode` module, which is not under `src/`).  Modelled from the spec §4.5:
`Return(Value)`, `ExternalCall{ext_function_id, args, call_id}`,
`OsCall{function, args, call_id}`, `ResolveFutures(Vec<CallId>)`.  The args
payload is carried opaquely as `β` and `OsFunction` as a numeric tag whose
`Display` text is supplied separately. -/
inductive FrameExit (α β : Type) where
  | Return (value : Value α)
  | ExternalCall (extFunctionId : Nat) (args : β) (callId : Nat)
  | OsCall (function : Nat) (args : β) (callId : Nat)
  | ResolveFutures (pendingCallIds : List Nat)

/-- Embedding of `frame_exit_to_object` from `crates/monty/src/run.rs` lines
1545–1567: the adapter that makes the synchronous entry points refuse every
suspension.  `getExtName` stands for `interns.get_external_function_name`,
`osDisplay` for `OsFunction`'s `Display` instance, and `toObj` for
`MontyObject::new(value, heap, interns)` (all in modules not under `src/`). -/
def frameExitToObject {α β ε μ : Type} (getExtName : Nat → String)
    (osDisplay : Nat → String) (toObj : Value α → μ) :
    Except (Exc ε) (FrameExit α β) → Except (Exc ε) μ
  | .error e => .error e
  | .ok (.Return v) => .ok (toObj v)
  | .ok (.ExternalCall extId _ _) =>
      .error (.notImplemented ("External function " ++ sq ++ getExtName extId ++ sq ++
        " not implemented with standard execution"))
  | .ok (.OsCall f _ _) =>
      .error (.notImplemented ("OS function " ++ sq ++ osDisplay f ++ sq ++
        " not implemented with standard execution"))
  | .ok (.ResolveFutures _) =>
      .error (.notImplemented "async futures not supported by standard execution.")

/-- The fields of `Executor` (from `crates/monty/src/run.rs` lines 1293–1313)
that `prepare_namespaces` reads: the prepared global namespace size and the
declared external-function ids. -/
structure Executor (α : Type) where
  namespaceSize : Nat
  externalFunctionIds : List Nat

/-- The input-conversion loop inside `Executor::prepare_namespaces` (lines
1530–1537): each `MontyObject` input is converted with
`input.to_value(heap, interns)` (abstracted as `conv`, since `object.rs` of
the crate is not under `src/`), pushed in order, and a conversion failure
short-circuits with `runtime_error("invalid input type: {e}")`. -/
def prepareInputs {α ε : Type} (conv : α → Except String (Value α)) :
    List α → Except (Exc ε) (List (Value α))
  | [] => .ok []
  | x :: xs =>
    match conv x with
    | .error e => .error (.runtimeError ("invalid input type: " ++ e))
    | .ok v =>
      match prepareInputs conv xs with
      | .error e => .error e
      | .ok vs => .ok (v :: vs)

/-- Embedding of `Executor::prepare_namespaces` from `crates/monty/src/run.rs`
lines 1514–1542.  The `checked_sub` guard runs first: when the external
functions plus the inputs outnumber the namespace, the preparation fails with
`runtime_error("too many inputs for namespace")`.  Otherwise the namespace is
external-function values, then converted inputs in order, then `Undefined`
padding (the source's `if extra > 0` guard is the no-op it looks like when
`extra = 0`, since extending by zero elements changes nothing). -/
def Executor.prepareNamespaces {α ε : Type} (ex : Executor α)
    (conv : α → Except String (Value α)) (inputs : List α) :
    Except (Exc ε) (List (Value α)) :=
  if ex.externalFunctionIds.length + inputs.length ≤ ex.namespaceSize then
    match prepareInputs (ε := ε) conv inputs with
    | .error e => .error e
    | .ok vs =>
      .ok (ex.externalFunctionIds.map Value.ExtFunction ++ vs ++
        List.replicate (ex.namespaceSize - (ex.externalFunctionIds.length + inputs.length))
          Value.Undefined)
  else .error (.runtimeError "too many inputs for namespace")

/-- Embedding of `Executor::run` from `crates/monty/src/run.rs` lines
1422–1449, the engine of the synchronous `MontyRun::run`.  `vmRunModule`
stands for `VM::new` + `run_module` + `cleanup` over the freshly prepared
namespaces (the VM lives in the `bytecode` module, not under `src/`); the
heap-capacity bookkeeping does not affect the returned value and is
omitted. -/
def Executor.run {α β ε μ : Type} (ex : Executor α)
    (conv : α → Except String (Value α))
    (vmRunModule : List (Value α) → Except (Exc ε) (FrameExit α β))
    (getExtName osDisplay : Nat → String) (toObj : Value α → μ)
    (inputs : List α) : Except (Exc ε) μ :=
  match ex.prepareNamespaces conv inputs with
  | .error e => .error e
  | .ok ns =>
    match frameExitToObject getExtName osDisplay toObj (vmRunModule ns) with
    | .error e => .error (intoPythonException e)
    | .ok v => .ok v

/-- Embedding of `MontyRepl::ensure_global_namespace_size` from
`crates/monty/src/run.rs` lines 356–361: when the global slot array is
shorter than the snippet's namespace size, `Vec::resize_with` appends
`Value::Undefined` slots up to that size; otherwise the array is left
untouched (it is never truncated). -/
def ensureGlobalNamespaceSize {α : Type} (globalNs : List (Value α))
    (namespaceSize : Nat) : List (Value α) :=
  if globalNs.length < namespaceSize then
    globalNs ++ List.replicate (namespaceSize - globalNs.length) Value.Undefined
  else globalNs

/-- The fields of `MontyRepl` (from `crates/monty/src/run.rs` lines 238–253)
that `feed` touches: the stable name-to-slot map, the intern tables, the
persistent heap, and the persistent global namespace.  The heap and intern
types live in modules not under `src/` and are carried opaquely. -/
structure ReplState (α η ι : Type) where
  globalNameMap : List (String × Nat)
  interns : ι
  heap : η
  globalNs : List (Value α)

/-- The fields of the snippet `Executor` produced by
`Executor::new_repl_snippet` that `MontyRepl::feed` destructures: the
snippet's namespace size, its updated name map, and its updated intern
tables. -/
structure SnippetExecutor (ι : Type) where
  namespaceSize : Nat
  nameMap : List (String × Nat)
  interns : ι

/-- Embedding of `MontyRepl::feed` from `crates/monty/src/run.rs` lines
312–348.  `compile` stands for `Executor::new_repl_snippet` (parser,
preparer and compiler are not under `src/`); `vmRun` stands for `VM::new` +
`run_module` + `cleanup`, which the source drives with the destructured
snippet executor's intern table and module code together with the session's
persistent heap and the grown global namespace, returning the frame exit
plus the mutated heap and namespace.  The compiler metadata
(`global_name_map`, `interns`) is committed to the session before the VM
result is inspected, so it is committed even when the snippet raised; the
mutated heap and namespace are kept as-is in either case (there is no
rollback path in the source). -/
def feed {α β ε η ι μ : Type}
    (compile : String → ReplState α η ι → Except (Exc ε) (SnippetExecutor ι))
    (vmRun : SnippetExecutor ι → η → List (Value α) →
      Except (Exc ε) (FrameExit α β) × η × List (Value α))
    (getExtName osDisplay : Nat → String) (toObj : Value α → μ) (noneObj : μ)
    (st : ReplState α η ι) (code : String) :
    ReplState α η ι × Except (Exc ε) μ :=
  if code = "" then (st, .ok noneObj)
  else
    match compile code st with
    | .error e => (st, .error e)
    | .ok ex =>
      match vmRun ex st.heap (ensureGlobalNamespaceSize st.globalNs ex.namespaceSize) with
      | (vmRes, heap1, ns1) =>
        ({ globalNameMap := ex.nameMap, interns := ex.interns,
           heap := heap1, globalNs := ns1 },
         match frameExitToObject getExtName osDisplay toObj vmRes with
         | .error e => .error (intoPythonException e)
         | .ok v => .ok v)

/-- The `ExternalResult` union from `crates/monty/src/run.rs` lines 855–864:
a host-provided return value, a host-raised exception, or a pending-future
marker. -/
inductive ExternalResult (μ ε : Type) where
  | Return (obj : μ)
  | Error (exc : Exc ε)
  | Future

/-- The VM methods that `FutureSnapshot::resume` / `ReplFutureSnapshot::resume`
invoke after `VM::restore`.  Modelled from the spec: the VM lives in the
`bytecode` module, not under `src/`; each field mirrors one method's visible
signature from `run.rs`, threading the VM state `σ` explicitly in place of
`&mut self`. -/
structure VMOps (μ ε σ α β : Type) where
  cleanup : σ → σ
  resolveFuture : σ → Nat → μ → Option String × σ
  failFuture : σ → Nat → Exc ε → σ
  takeFailedTaskError : σ → Option (Exc ε) × σ
  prepareMainTaskAfterResolve : σ → Bool × σ
  loadReadyTaskIfNeeded : σ → Except (Exc ε) Bool × σ
  getPendingCallIds : σ → List Nat
  runVM : σ → Except (Exc ε) (FrameExit α β) × σ

/-- Outcome of a `resume` call, keeping the final VM state observable so
that "cleanup still runs before the error is returned" is a statement about
the outcome rather than about hidden effects.  `failed` corresponds to
`return Err(..)`, `resolveFutures` to returning another
`FutureSnapshot`/`ReplFutureSnapshot`, and `continued` to falling through to
`vm.run()` and the `handle_vm_result` / `handle_repl_vm_result` adapters. -/
inductive ResumeOutcome (μ ε σ α β : Type) where
  | failed (e : Exc ε) (vmFinal : σ)
  | resolveFutures (pendingCallIds : List Nat) (vmFinal : σ)
  | continued (result : Except (Exc ε) (FrameExit α β)) (vmFinal : σ)

/-- The message `format!("unknown call_id {call_id}, expected one of:
{pending_call_ids:?}")` from both `resume` implementations (Rust's `{:?}` on
a vector and Lean's `toString` on a list print identically). -/
def unknownCallIdMsg (callId : Nat) (pendingCallIds : List Nat) : String :=
  "unknown call_id " ++ toString callId ++ ", expected one of: " ++ toString pendingCallIds

/-- The `for (call_id, ext_result) in results` loop shared by
`FutureSnapshot::resume` (lines 1063–1074) and `ReplFutureSnapshot::resume`
(lines 773–781): `Return` results are resolved (an invalid return type
short-circuits with `runtime_error("Invalid return type for call {id}: {e}")`,
with no cleanup on that path), `Error` results fail the future, and `Future`
results are skipped. -/
def applyResults {μ ε σ α β : Type} (ops : VMOps μ ε σ α β) :
    List (Nat × ExternalResult μ ε) → σ → Except (Exc ε × σ) σ
  | [], vm => .ok vm
  | (callId, r) :: rest, vm =>
    match r with
    | .Return obj =>
      match ops.resolveFuture vm callId obj with
      | (some e, vmAfter) =>
          .error (.runtimeError ("Invalid return type for call " ++ toString callId ++
            ": " ++ e), vmAfter)
      | (none, vmAfter) => applyResults ops rest vmAfter
    | .Error exc => applyResults ops rest (ops.failFuture vm callId exc)
    | .Future => applyResults ops rest vm

/-- The post-validation phase shared by `FutureSnapshot::resume` (lines
1063–1127) and `ReplFutureSnapshot::resume` (lines 773–820): apply the
results, propagate a failed task (with cleanup), push the main task's value
if unblocked, load a ready task if frames are empty (failure also cleans
up), return another future snapshot when nothing became runnable and calls
remain pending, and otherwise continue with `vm.run()`. -/
def resumeResolved {μ ε σ α β : Type} (ops : VMOps μ ε σ α β)
    (results : List (Nat × ExternalResult μ ε)) (vm : σ) : ResumeOutcome μ ε σ α β :=
  match applyResults ops results vm with
  | .error (e, vmAfter) => .failed e vmAfter
  | .ok vm1 =>
    match ops.takeFailedTaskError vm1 with
    | (some e, vm2) => .failed (intoPythonException e) (ops.cleanup vm2)
    | (none, vm2) =>
      match ops.prepareMainTaskAfterResolve vm2 with
      | (mainTaskReady, vm3) =>
        match ops.loadReadyTaskIfNeeded vm3 with
        | (.error e, vm4) => .failed (intoPythonException e) (ops.cleanup vm4)
        | (.ok loadedTask, vm4) =>
          if !mainTaskReady && !loadedTask && !(ops.getPendingCallIds vm4).isEmpty then
            .resolveFutures (ops.getPendingCallIds vm4) vm4
          else
            match ops.runVM vm4 with
            | (res, vm5) => .continued res vm5

/-- Embedding of `FutureSnapshot::resume` from `crates/monty/src/run.rs`
lines 1021–1127: `results.iter().find(..)` locates the first supplied
call id outside the pending set; if one exists, the restored VM is cleaned
up and `runtime_error("unknown call_id ..")` is returned, otherwise the
shared post-validation phase runs.  `vm0` stands for the VM produced by
`VM::restore`. -/
def FutureSnapshot.resume {μ ε σ α β : Type} (ops : VMOps μ ε σ α β)
    (pendingCallIds : List Nat) (results : List (Nat × ExternalResult μ ε))
    (vm0 : σ) : ResumeOutcome μ ε σ α β :=
  match results.find? (fun r => !(pendingCallIds.contains r.1)) with
  | some r =>
      .failed (.runtimeError (unknownCallIdMsg r.1 pendingCallIds)) (ops.cleanup vm0)
  | none => resumeResolved ops results vm0

/-- Embedding of `ReplFutureSnapshot::resume` from `crates/monty/src/run.rs`
lines 736–820: the REPL twin of `FutureSnapshot::resume`, with identical
call-id validation, cleanup-then-error behaviour, and post-validation
phase (it differs only in carrying the REPL session and producing
`ReplProgress`). -/
def ReplFutureSnapshot.resume {μ ε σ α β : Type} (ops : VMOps μ ε σ α β)
    (pendingCallIds : List Nat) (results : List (Nat × ExternalResult μ ε))
    (vm0 : σ) : ResumeOutcome μ ε σ α β :=
  match results.find? (fun r => !(pendingCallIds.contains r.1)) with
  | some r =>
      .failed (.runtimeError (unknownCallIdMsg r.1 pendingCallIds)) (ops.cleanup vm0)
  | none => resumeResolved ops results vm0


/-- Folding the real `MontyRepl::feed` over a list of snippets: the REPL
side of the spec's REPL-versus-batch equivalence (each snippet executes
against the session state the previous one left behind). -/
def feedAll {α β ε η ι μ : Type}
    (compile : String → ReplState α η ι → Except (Exc ε) (SnippetExecutor ι))
    (vmRun : SnippetExecutor ι → η → List (Value α) →
      Except (Exc ε) (FrameExit α β) × η × List (Value α))
    (getExtName osDisplay : Nat → String) (toObj : Value α → μ) (noneObj : μ)
    (st : ReplState α η ι) (codes : List String) : ReplState α η ι :=
  codes.foldl
    (fun s c => (feed compile vmRun getExtName osDisplay toObj noneObj s c).1) st

/-- Modelled from the spec: in-order execution of compiled snippet units
over the shared heap and global namespace — the behaviour §2 and §4.2
ascribe to the module compiled from the concatenated source (module code
executes its statements in order with stable slot assignment; the compiler
and VM live in the `parse`/`prepare`/`bytecode` modules, which are not under
`src/`).  This stands only for the missing compiler+VM of the batch
program; the REPL side and the batch namespace preparation use the embedded
`feed` and `Executor.prepareNamespaces`. -/
def execSeq {α β ε η ι : Type}
    (vmRun : SnippetExecutor ι → η → List (Value α) →
      Except (Exc ε) (FrameExit α β) × η × List (Value α))
    (exs : List (SnippetExecutor ι)) (h : η) (ns : List (Value α)) :
    η × List (Value α) :=
  exs.foldl (fun p ex => ((vmRun ex p.1 p.2).2.1, (vmRun ex p.1 p.2).2.2)) (h, ns)

/-- Spec-side conditions on the snippet compiler and VM (both outside
`src/`) along a REPL trajectory, under which the equivalence is claimed:
each snippet is nonempty, compiles against the session metadata, has a
namespace size within the batch program's size `N` (batch compilation
assigns slots for the names of all snippets), completes normally — it
returns a value, so there is no external call, OS call, future suspension
or uncaught exception — without resizing the namespace (spec §3: slot
arrays are never resized by execution, only by
`ensure_global_namespace_size`), and behaves identically when the namespace
carries trailing `Undefined` padding up to `N` (spec §3/§4.4: compiled code
addresses only slots below its own namespace size). -/
inductive StepsOk {α β ε η ι : Type}
    (compile : String → ReplState α η ι → Except (Exc ε) (SnippetExecutor ι))
    (vmRun : SnippetExecutor ι → η → List (Value α) →
      Except (Exc ε) (FrameExit α β) × η × List (Value α))
    (N : Nat) : ReplState α η ι → List String → List (SnippetExecutor ι) → Prop where
  | nil (st : ReplState α η ι) : StepsOk compile vmRun N st [] []
  | cons (st : ReplState α η ι) (code : String) (rest : List String)
      (ex : SnippetExecutor ι) (exs : List (SnippetExecutor ι))
      (v : Value α) (h1 : η) (ns1 : List (Value α))
      (hne : code ≠ "")
      (hcomp : compile code st = .ok ex)
      (hsize : ex.namespaceSize ≤ N)
      (hrun : vmRun ex st.heap (ensureGlobalNamespaceSize st.globalNs ex.namespaceSize) =
        (.ok (.Return v), h1, ns1))
      (hlen : ns1.length = (ensureGlobalNamespaceSize st.globalNs ex.namespaceSize).length)
      (hpad : vmRun ex st.heap (ensureGlobalNamespaceSize st.globalNs ex.namespaceSize ++
          List.replicate
            (N - (ensureGlobalNamespaceSize st.globalNs ex.namespaceSize).length)
            Value.Undefined) =
        (.ok (.Return v), h1, ns1 ++
          List.replicate
            (N - (ensureGlobalNamespaceSize st.globalNs ex.namespaceSize).length)
            Value.Undefined))
      (hrest : StepsOk compile vmRun N ⟨ex.nameMap, ex.interns, h1, ns1⟩ rest exs) :
      StepsOk compile vmRun N st (code :: rest) (ex :: exs)

/-- Concrete input conversion over `Unit`, used to evaluate the embedding on
concrete inputs. -/
def witConv : Unit → Except String (Value Unit) := fun _ => .ok (.Conv ())

/-- Concrete VM-operation table over state `Nat` (cleanup increments the
state, making "cleanup ran" observable), used to evaluate the resume
embedding on concrete inputs. -/
def witOps : VMOps Unit Unit Nat Unit Unit where
  cleanup := fun s => s + 1
  resolveFuture := fun s _ _ => (none, s)
  failFuture := fun s _ _ => s
  takeFailedTaskError := fun s => (none, s)
  prepareMainTaskAfterResolve := fun s => (true, s)
  loadReadyTaskIfNeeded := fun s => (.ok false, s)
  getPendingCallIds := fun _ => []
  runVM := fun s => (.ok (.Return .Undefined), s)

/-- Concrete empty REPL session, used to evaluate the feed embedding on
concrete inputs. -/
def witReplState : ReplState Unit Unit Unit := ⟨[], (), (), []⟩

/-- Concrete snippet compiler: every snippet compiles to a two-slot namespace
binding the name `x` to slot 0. -/
def witCompile : String → ReplState Unit Unit Unit → Except (Exc Unit) (SnippetExecutor Unit) :=
  fun _ _ => .ok ⟨2, [("x", 0)], ()⟩

/-- Concrete VM run that raises at once, leaving the namespace as it
received it. -/
def witVmRun : SnippetExecutor Unit → Unit → List (Value Unit) →
    Except (Exc Unit) (FrameExit Unit Unit) × Unit × List (Value Unit) :=
  fun _ _ ns => (.error (.runtimeError "boom"), (), ns)

/-- Concrete snippet compiler over heap `Nat`: the snippet "a" compiles to
a one-slot unit, any other snippet to a two-slot unit. -/
def witCompile2 : String → ReplState Unit Nat Unit → Except (Exc Unit) (SnippetExecutor Unit) :=
  fun c _ => .ok ⟨if c = "a" then 1 else 2, [("x", 0)], ()⟩

/-- Concrete snippet execution over heap `Nat`: bumps the heap counter and
leaves the namespace unchanged. -/
def witVmRun2 : SnippetExecutor Unit → Nat → List (Value Unit) →
    Except (Exc Unit) (FrameExit Unit Unit) × Nat × List (Value Unit) :=
  fun _ h ns => (.ok (.Return .Undefined), h + 1, ns)

end Run

namespace Proto

/-- On values representable in `i64`, `wrap64` is the identity. -/
theorem wrap64_eq_of_fits {n : ℤ} (h : fitsI64 n) : wrap64 n = n := by
  obtain ⟨h1, h2⟩ := h
  unfold i64Min at h1
  unfold i64Max at h2
  unfold wrap64
  have h3 : (0:ℤ) ≤ n + 2 ^ 63 := by omega
  have h4 : n + 2 ^ 63 < 2 ^ 64 := by omega
  rw [Int.emod_eq_of_lt h3 h4]
  omega

/-- C1 counterexample: at `a = i64Max`, `b = 1` the mathematical sum does not
fit in `i64`, yet `Object::add` returns a normal value — the wrapped integer
`i64Min`, which differs from the true sum — and `Object::add_mut` likewise
succeeds.  No `OverflowError` (indeed no error of any kind) is produced; the
source contains no checked-arithmetic path at all. -/
theorem add_overflow_wraps_cex :
    ¬ fitsI64 (i64Max + 1) ∧
    Object.add (F := Unit) (E := Unit) (.Int i64Max) (.Int 1) = some (.Int i64Min) ∧
    Object.add_mut (F := Unit) (E := Unit) (.Int i64Max) (.Int 1) = .ok (.Int i64Min) ∧
    i64Min ≠ i64Max + 1 :=
  ⟨by decide, rfl, rfl, by decide⟩

/-- C1 (amended): `Int` addition in `Object::add` / `Object::add_mut` never
raises: it always produces `Int(wrap64(a + b))`, the sum reduced to 64-bit
two's complement (a Rust release build wraps silently; a debug build aborts
the process — in neither case is a run-time `OverflowError` raised).  When
the mathematical sum fits in `i64` the result is exactly `Int(a + b)`. -/
theorem add_wrapping_semantics {F E : Type} (a b : ℤ) :
    Object.add (F := F) (E := E) (.Int a) (.Int b) = some (.Int (wrap64 (a + b))) ∧
    Object.add_mut (F := F) (E := E) (.Int a) (.Int b) = .ok (.Int (wrap64 (a + b))) ∧
    (fitsI64 (a + b) →
      Object.add (F := F) (E := E) (.Int a) (.Int b) = some (.Int (a + b))) :=
  ⟨rfl, rfl, fun h => by rw [show Object.add (F := F) (E := E) (.Int a) (.Int b) =
      some (.Int (wrap64 (a + b))) from rfl, wrap64_eq_of_fits h]⟩

theorem add_wrapping_semantics_witness :
    Object.add (F := Unit) (E := Unit) (.Int 40) (.Int 2) = some (.Int (wrap64 (40 + 2))) ∧
    fitsI64 (40 + 2) ∧
    Object.add (F := Unit) (E := Unit) (.Int 40) (.Int 2) = some (.Int (40 + 2)) :=
  ⟨(add_wrapping_semantics 40 2).1, by decide,
   (add_wrapping_semantics 40 2).2.2 (by decide)⟩

/-- C5: reading a namespace slot through the `Expr::Name` arm of
`Frame::execute_expr`: a slot that is absent (`get` returns `None`) or that
holds `Undefined` raises the name error `name '<id>' is not defined`; a slot
holding any other object succeeds and returns that object unchanged. -/
theorem name_lookup_semantics {F E : Type} (ns : List (Object F E)) (id : Nat) :
    (ns[id]? = none → executeExprName ns id = .error (nameNotDefined id)) ∧
    (ns[id]? = some .Undefined → executeExprName ns id = .error (nameNotDefined id)) ∧
    (∀ obj : Object F E, ns[id]? = some obj → obj ≠ .Undefined →
      executeExprName ns id = .ok obj) := by
  refine ⟨fun h => ?_, fun h => ?_, fun obj h hne => ?_⟩
  · simp [executeExprName, h]
  · simp [executeExprName, h]
  · unfold executeExprName
    rw [h]
    cases obj <;> first | exact absurd rfl hne | rfl

theorem name_lookup_semantics_witness :
    (([] : List (Object Unit Unit))[0]? = none ∧
      executeExprName ([] : List (Object Unit Unit)) 0 = .error (nameNotDefined 0)) ∧
    (([Object.Undefined] : List (Object Unit Unit))[0]? = some .Undefined ∧
      executeExprName ([Object.Undefined] : List (Object Unit Unit)) 0 =
        .error (nameNotDefined 0)) ∧
    (([Object.Int 5] : List (Object Unit Unit))[0]? = some (.Int 5) ∧
      (Object.Int 5 : Object Unit Unit) ≠ .Undefined ∧
      executeExprName ([Object.Int 5] : List (Object Unit Unit)) 0 = .ok (.Int 5)) :=
  ⟨⟨rfl, (name_lookup_semantics [] 0).1 rfl⟩,
   ⟨rfl, (name_lookup_semantics _ 0).2.1 rfl⟩,
   ⟨rfl, fun h => Object.noConfusion h,
    (name_lookup_semantics _ 0).2.2 _ rfl (fun h => Object.noConfusion h)⟩⟩

/-- C6: equality semantics of `Object::py_eq`: `Undefined` compares unequal
to every object `x` in both orders — including `x = Undefined` itself — and
`True` compares equal to `Int(1)`, `False` to `Int(0)`, in both argument
orders. -/
theorem py_eq_undefined_bool_semantics {F E : Type} (x : Object F E) :
    Object.py_eq .Undefined x = false ∧
    Object.py_eq x .Undefined = false ∧
    Object.py_eq (F := F) (E := E) .True (.Int 1) = true ∧
    Object.py_eq (F := F) (E := E) (.Int 1) .True = true ∧
    Object.py_eq (F := F) (E := E) .False (.Int 0) = true ∧
    Object.py_eq (F := F) (E := E) (.Int 0) .False = true := by
  refine ⟨?_, ?_, ?_, ?_, ?_, ?_⟩
  · cases x <;> simp [Object.py_eq]
  · cases x <;> simp [Object.py_eq]
  all_goals simp [Object.py_eq]

end Proto

namespace Run

/-- C3: under the synchronous entry point (`MontyRun::run` → `Executor::run`),
execution never suspends: once the namespaces are prepared, a VM exit of
`ExternalCall` is turned into a `NotImplementedError` whose message names the
external function, an `OsCall` into one naming the OS function, and
`ResolveFutures` into the `NotImplementedError` for async futures — while a
`Return` exit yields the final value. -/
theorem sync_run_no_suspension {α β ε μ : Type} (ex : Executor α)
    (conv : α → Except String (Value α))
    (vmRunModule : List (Value α) → Except (Exc ε) (FrameExit α β))
    (getExtName osDisplay : Nat → String) (toObj : Value α → μ)
    (inputs : List α) (ns : List (Value α))
    (hprep : ex.prepareNamespaces (ε := ε) conv inputs = .ok ns) :
    (∀ v, vmRunModule ns = .ok (.Return v) →
      ex.run conv vmRunModule getExtName osDisplay toObj inputs = .ok (toObj v)) ∧
    (∀ extId args callId, vmRunModule ns = .ok (.ExternalCall extId args callId) →
      ex.run conv vmRunModule getExtName osDisplay toObj inputs =
        .error (.notImplemented ("External function " ++ sq ++ getExtName extId ++ sq ++
          " not implemented with standard execution"))) ∧
    (∀ f args callId, vmRunModule ns = .ok (.OsCall f args callId) →
      ex.run conv vmRunModule getExtName osDisplay toObj inputs =
        .error (.notImplemented ("OS function " ++ sq ++ osDisplay f ++ sq ++
          " not implemented with standard execution"))) ∧
    (∀ pending, vmRunModule ns = .ok (.ResolveFutures pending) →
      ex.run conv vmRunModule getExtName osDisplay toObj inputs =
        .error (.notImplemented "async futures not supported by standard execution.")) := by
  refine ⟨fun v h => ?_, fun extId args callId h => ?_, fun f args callId h => ?_,
    fun pending h => ?_⟩ <;>
    simp only [Executor.run, hprep, h, frameExitToObject, intoPythonException]

theorem sync_run_no_suspension_witness :
    Executor.prepareNamespaces (α := Unit) (ε := Unit) ⟨0, []⟩ witConv [] = .ok [] ∧
    Executor.run (β := Unit) (ε := Unit) (μ := Nat) ⟨0, []⟩ witConv
        (fun _ => .ok (.ExternalCall 0 () 7)) (fun _ => "add_ints") (fun _ => "os")
        (fun _ => 0) [] =
      .error (.notImplemented ("External function " ++ sq ++ "add_ints" ++ sq ++
        " not implemented with standard execution")) := by
  refine ⟨rfl, ?_⟩
  exact (sync_run_no_suspension ⟨0, []⟩ witConv (fun _ => .ok (.ExternalCall 0 () 7))
    (fun _ => "add_ints") (fun _ => "os") (fun _ => 0) [] [] rfl).2.1 0 () 7 rfl

/-- C4: resuming a `FutureSnapshot` or a `ReplFutureSnapshot` with a results
list containing a call id outside the pending set returns a runtime-error
exception whose message identifies that call id, and the final VM state is
the cleaned-up one (`vm.cleanup()` ran before the error was returned);
a results list all of whose call ids lie in the pending set — any subset —
passes validation and proceeds to the shared resolution phase. -/
theorem resume_unknown_call_id_validation {μ ε σ α β : Type} (ops : VMOps μ ε σ α β)
    (pendingCallIds : List Nat) (results : List (Nat × ExternalResult μ ε)) (vm0 : σ) :
    ((∃ r ∈ results, r.1 ∉ pendingCallIds) →
      ∃ badId, badId ∈ results.map Prod.fst ∧ badId ∉ pendingCallIds ∧
        FutureSnapshot.resume ops pendingCallIds results vm0 =
          .failed (.runtimeError (unknownCallIdMsg badId pendingCallIds))
            (ops.cleanup vm0) ∧
        ReplFutureSnapshot.resume ops pendingCallIds results vm0 =
          .failed (.runtimeError (unknownCallIdMsg badId pendingCallIds))
            (ops.cleanup vm0)) ∧
    ((∀ r ∈ results, r.1 ∈ pendingCallIds) →
      FutureSnapshot.resume ops pendingCallIds results vm0 =
        resumeResolved ops results vm0 ∧
      ReplFutureSnapshot.resume ops pendingCallIds results vm0 =
        resumeResolved ops results vm0) := by
  constructor
  · rintro ⟨r, hr, hnot⟩
    rcases heq : results.find? (fun r => !(pendingCallIds.contains r.1)) with _ | r0
    · exfalso
      have := List.find?_eq_none.mp heq r hr
      simp [hnot] at this
    · refine ⟨r0.1, ?_, ?_, ?_, ?_⟩
      · exact List.mem_map_of_mem Prod.fst (List.mem_of_find?_eq_some heq)
      · have := List.find?_some heq
        simpa using this
      · simp only [FutureSnapshot.resume, heq]
      · simp only [ReplFutureSnapshot.resume, heq]
  · intro hall
    have heq : results.find? (fun r => !(pendingCallIds.contains r.1)) = none := by
      rw [List.find?_eq_none]
      intro x hx
      simp [hall x hx]
    constructor
    · simp only [FutureSnapshot.resume, heq]
    · simp only [ReplFutureSnapshot.resume, heq]

theorem resume_unknown_call_id_validation_witness :
    FutureSnapshot.resume witOps [1, 2] [(3, .Future)] 0 =
      .failed (.runtimeError (unknownCallIdMsg 3 [1, 2])) (witOps.cleanup 0) ∧
    FutureSnapshot.resume witOps [1, 2] [(1, .Future)] 0 =
      resumeResolved witOps [(1, .Future)] 0 ∧
    ReplFutureSnapshot.resume witOps [1, 2] [(1, .Future)] 0 =
      resumeResolved witOps [(1, .Future)] 0 := by
  have h1 := (resume_unknown_call_id_validation witOps [1, 2] [(3, .Future)] 0).1
    ⟨(3, .Future), by simp, by simp⟩
  have h2 := (resume_unknown_call_id_validation witOps [1, 2] [(1, .Future)] 0).2
    (by simp)
  obtain ⟨b, hb, hnb, hf, hr⟩ := h1
  have hb3 : b = 3 := by simpa using hb
  subst hb3
  exact ⟨hf, h2.1, h2.2⟩

/-- C7: `ensure_global_namespace_size` (run by `feed` and `start` before each
snippet executes) only grows the global slot array: the result is never
shorter than the input, its length is the maximum of the old length and the
requested size, every pre-existing index keeps exactly the value it held,
and every newly created slot holds `Undefined`. -/
theorem ensure_global_namespace_only_grows {α : Type} (g : List (Value α)) (n : Nat) :
    g.length ≤ (ensureGlobalNamespaceSize g n).length ∧
    (ensureGlobalNamespaceSize g n).length = max g.length n ∧
    (∀ i, i < g.length → (ensureGlobalNamespaceSize g n)[i]? = g[i]?) ∧
    (∀ i, g.length ≤ i → i < n →
      (ensureGlobalNamespaceSize g n)[i]? = some Value.Undefined) := by
  unfold ensureGlobalNamespaceSize
  by_cases h : g.length < n
  · rw [if_pos h]
    refine ⟨?_, ?_, fun i hi => ?_, fun i hi1 hi2 => ?_⟩
    · simp
    · simp; omega
    · rw [List.getElem?_append_left hi]
    · rw [List.getElem?_append_right hi1, List.getElem?_replicate_of_lt (by omega)]
  · rw [if_neg h]
    refine ⟨le_refl _, by omega, fun i hi => rfl, fun i hi1 hi2 => by omega⟩

theorem ensure_global_namespace_only_grows_witness :
    (0 : Nat) < ([Value.ExtFunction 0] : List (Value Unit)).length ∧
    (ensureGlobalNamespaceSize ([Value.ExtFunction 0] : List (Value Unit)) 3)[0]? =
      ([Value.ExtFunction 0] : List (Value Unit))[0]? ∧
    ([Value.ExtFunction 0] : List (Value Unit)).length ≤ 2 ∧ 2 < 3 ∧
    (ensureGlobalNamespaceSize ([Value.ExtFunction 0] : List (Value Unit)) 3)[2]? =
      some Value.Undefined := by
  have h := ensure_global_namespace_only_grows ([Value.ExtFunction 0] : List (Value Unit)) 3
  exact ⟨by decide, h.2.2.1 0 (by decide), by decide, by decide,
    h.2.2.2 2 (by decide) (by decide)⟩

/-- Auxiliary: the grown global namespace has as length the maximum of the
old length and the requested size. -/
theorem ensure_length_eq_max {α : Type} (g : List (Value α)) (n : Nat) :
    (ensureGlobalNamespaceSize g n).length = max g.length n := by
  unfold ensureGlobalNamespaceSize
  by_cases h : g.length < n
  · rw [if_pos h]
    simp
    omega
  · rw [if_neg h]
    omega

/-- Auxiliary: growing the global namespace and then padding with
`Undefined` up to a common size `N` is the same as padding the ungrown
namespace — the REPL's stepwise `ensure_global_namespace_size` growth
agrees with the batch run's upfront `Undefined` fill. -/
theorem ensure_pad_absorb {α : Type} (g : List (Value α)) (nsz N : Nat)
    (hsz : nsz ≤ N) (hg : g.length ≤ N) :
    ensureGlobalNamespaceSize g nsz ++
        List.replicate (N - (ensureGlobalNamespaceSize g nsz).length) Value.Undefined =
      g ++ List.replicate (N - g.length) Value.Undefined := by
  unfold ensureGlobalNamespaceSize
  by_cases h : g.length < nsz
  · rw [if_pos h]
    have hl : (g ++ List.replicate (nsz - g.length) (Value.Undefined (α := α))).length = nsz := by
      simp
      omega
    rw [hl, List.append_assoc, ← List.replicate_add]
    congr 2
    omega
  · rw [if_neg h]

/-- Auxiliary: a feed whose snippet compiles and whose execution completes
normally returns the committed session and the snippet's value. -/
theorem feed_ok_step {α β ε η ι μ : Type}
    (compile : String → ReplState α η ι → Except (Exc ε) (SnippetExecutor ι))
    (vmRun : SnippetExecutor ι → η → List (Value α) →
      Except (Exc ε) (FrameExit α β) × η × List (Value α))
    (getExtName osDisplay : Nat → String) (toObj : Value α → μ) (noneObj : μ)
    (st : ReplState α η ι) (code : String) (ex : SnippetExecutor ι)
    (v : Value α) (h1 : η) (ns1 : List (Value α))
    (hne : code ≠ "") (hcomp : compile code st = .ok ex)
    (hrun : vmRun ex st.heap (ensureGlobalNamespaceSize st.globalNs ex.namespaceSize) =
      (.ok (.Return v), h1, ns1)) :
    feed compile vmRun getExtName osDisplay toObj noneObj st code =
      (⟨ex.nameMap, ex.interns, h1, ns1⟩, .ok (toObj v)) := by
  simp only [feed, if_neg hne, hcomp, hrun]
  rfl

/-- Auxiliary induction: along a `StepsOk` trajectory, the session reached
by folding the real `feed` corresponds — heap equal, global namespace equal
up to trailing `Undefined` padding to the batch size `N` — to sequentially
executing the snippet units on the padded namespace. -/
theorem stepsOk_correspondence {α β ε η ι μ : Type}
    (compile : String → ReplState α η ι → Except (Exc ε) (SnippetExecutor ι))
    (vmRun : SnippetExecutor ι → η → List (Value α) →
      Except (Exc ε) (FrameExit α β) × η × List (Value α))
    (getExtName osDisplay : Nat → String) (toObj : Value α → μ) (noneObj : μ)
    (N : Nat) (st : ReplState α η ι) (codes : List String)
    (exs : List (SnippetExecutor ι))
    (hs : StepsOk compile vmRun N st codes exs) :
    st.globalNs.length ≤ N →
    (feedAll compile vmRun getExtName osDisplay toObj noneObj st codes).heap =
      (execSeq vmRun exs st.heap
        (st.globalNs ++ List.replicate (N - st.globalNs.length) Value.Undefined)).1 ∧
    (feedAll compile vmRun getExtName osDisplay toObj noneObj st codes).globalNs ++
        List.replicate
          (N - (feedAll compile vmRun getExtName osDisplay toObj noneObj
            st codes).globalNs.length)
          Value.Undefined =
      (execSeq vmRun exs st.heap
        (st.globalNs ++ List.replicate (N - st.globalNs.length) Value.Undefined)).2 ∧
    (feedAll compile vmRun getExtName osDisplay toObj noneObj st codes).globalNs.length ≤ N := by
  induction hs with
  | nil st => exact fun hlen0 => ⟨rfl, rfl, hlen0⟩
  | cons st code rest ex exs v h1 ns1 hne hcomp hsize hrun hlen hpad hrest ih =>
    intro hlen0
    have hfeed := feed_ok_step compile vmRun getExtName osDisplay toObj noneObj st code ex
      v h1 ns1 hne hcomp hrun
    have hstep : feedAll compile vmRun getExtName osDisplay toObj noneObj st (code :: rest) =
        feedAll compile vmRun getExtName osDisplay toObj noneObj
          ⟨ex.nameMap, ex.interns, h1, ns1⟩ rest := by
      simp [feedAll, hfeed]
    have hens := ensure_pad_absorb st.globalNs ex.namespaceSize N hsize hlen0
    have hbatch : execSeq vmRun (ex :: exs) st.heap
        (st.globalNs ++ List.replicate (N - st.globalNs.length) Value.Undefined) =
        execSeq vmRun exs h1 (ns1 ++ List.replicate (N - ns1.length) Value.Undefined) := by
      rw [← hens]
      simp only [execSeq, List.foldl_cons, hpad]
      rw [hlen]
    have hlen1 : ns1.length ≤ N := by
      rw [hlen, ensure_length_eq_max]
      omega
    have ihres := ih hlen1
    rw [hstep, hbatch]
    exact ihres

/-- C8: REPL-versus-batch equivalence over the real embeddings.  The REPL
side folds the embedded `MontyRepl::feed` over the snippets; the batch side
executes over the namespace prepared by the embedded
`Executor::prepare_namespaces` for the concatenated program.  The snippet
compiler and the VM are not under `src/`, so their behaviour enters through
the `StepsOk` hypotheses (each snippet compiles and completes normally with
no external or OS calls, respects the frame discipline, and fits the batch
namespace) and through `execSeq`, the spec-modelled in-order execution of
the concatenated module.  Conclusion: the final REPL heap equals the batch
heap; the final REPL global namespace equals the batch namespace up to
trailing `Undefined` padding — exactly, once the REPL has reached the batch
size; and the synchronous `Executor::run` on the concatenated program does
not suspend but completes with the batch value. -/
theorem repl_concat_equivalence {α β ε η ι μ : Type}
    (compile : String → ReplState α η ι → Except (Exc ε) (SnippetExecutor ι))
    (vmRun : SnippetExecutor ι → η → List (Value α) →
      Except (Exc ε) (FrameExit α β) × η × List (Value α))
    (getExtName osDisplay : Nat → String) (toObj : Value α → μ) (noneObj : μ)
    (conv : α → Except String (Value α)) (inputs : List α)
    (batchEx : Executor α) (nsB : List (Value α))
    (st : ReplState α η ι) (snippets : List String)
    (exs : List (SnippetExecutor ι))
    (hprep : batchEx.prepareNamespaces (ε := ε) conv inputs = .ok nsB)
    (hinit : nsB = st.globalNs ++
      List.replicate (nsB.length - st.globalNs.length) Value.Undefined)
    (hlen0 : st.globalNs.length ≤ nsB.length)
    (hs : StepsOk compile vmRun nsB.length st snippets exs) :
    (feedAll compile vmRun getExtName osDisplay toObj noneObj st snippets).heap =
      (execSeq vmRun exs st.heap nsB).1 ∧
    (feedAll compile vmRun getExtName osDisplay toObj noneObj st snippets).globalNs ++
        List.replicate
          (nsB.length - (feedAll compile vmRun getExtName osDisplay toObj noneObj
            st snippets).globalNs.length)
          Value.Undefined =
      (execSeq vmRun exs st.heap nsB).2 ∧
    (nsB.length ≤ (feedAll compile vmRun getExtName osDisplay toObj noneObj
        st snippets).globalNs.length →
      (feedAll compile vmRun getExtName osDisplay toObj noneObj st snippets).globalNs =
        (execSeq vmRun exs st.heap nsB).2) ∧
    (∀ (vB : Value α) (vmRunModule : List (Value α) → Except (Exc ε) (FrameExit α β)),
      vmRunModule nsB = .ok (.Return vB) →
      batchEx.run conv vmRunModule getExtName osDisplay toObj inputs = .ok (toObj vB)) := by
  have key := stepsOk_correspondence compile vmRun getExtName osDisplay toObj noneObj
    nsB.length st snippets exs hs hlen0
  rw [← hinit] at key
  refine ⟨key.1, key.2.1, fun hge => ?_, fun vB vmRunModule hvmb => ?_⟩
  · have hle := key.2.2
    have h0 : nsB.length - (feedAll compile vmRun getExtName osDisplay toObj noneObj
        st snippets).globalNs.length = 0 := by omega
    have h2 := key.2.1
    rw [h0] at h2
    simpa using h2
  · simp only [Executor.run, hprep, hvmb, frameExitToObject, intoPythonException]

theorem repl_concat_equivalence_witness :
    (feedAll witCompile2 witVmRun2 (fun _ => "f") (fun _ => "g") (fun _ => (0 : Nat)) 1
        ⟨[], (), 0, []⟩ ["a", "b"]).heap =
      (execSeq witVmRun2 [⟨1, [("x", 0)], ()⟩, ⟨2, [("x", 0)], ()⟩] 0
        [Value.Undefined, Value.Undefined]).1 ∧
    (feedAll witCompile2 witVmRun2 (fun _ => "f") (fun _ => "g") (fun _ => (0 : Nat)) 1
        ⟨[], (), 0, []⟩ ["a", "b"]).globalNs =
      (execSeq witVmRun2 [⟨1, [("x", 0)], ()⟩, ⟨2, [("x", 0)], ()⟩] 0
        [Value.Undefined, Value.Undefined]).2 ∧
    Executor.run (β := Unit) (ε := Unit) (⟨2, []⟩ : Executor Unit) witConv
        (fun _ => .ok (.Return (Value.Undefined))) (fun _ => "f") (fun _ => "g")
        (fun _ => (0 : Nat)) [] = .ok 0 := by
  have hs : StepsOk witCompile2 witVmRun2 2 ⟨[], (), 0, []⟩ ["a", "b"]
      [⟨1, [("x", 0)], ()⟩, ⟨2, [("x", 0)], ()⟩] := by
    refine StepsOk.cons _ "a" _ _ _ Value.Undefined 1 [Value.Undefined]
      (by decide) rfl (by decide) rfl rfl rfl ?_
    refine StepsOk.cons _ "b" _ _ _ Value.Undefined 2 [Value.Undefined, Value.Undefined]
      (by decide) rfl (by decide) rfl rfl rfl ?_
    exact StepsOk.nil _
  have h := repl_concat_equivalence witCompile2 witVmRun2 (fun _ => "f") (fun _ => "g")
    (fun _ => (0 : Nat)) 1 witConv [] ⟨2, []⟩ [Value.Undefined, Value.Undefined]
    ⟨[], (), 0, []⟩ ["a", "b"] [⟨1, [("x", 0)], ()⟩, ⟨2, [("x", 0)], ()⟩]
    rfl rfl (by decide) hs
  exact ⟨h.1, h.2.2.1 (by decide),
    h.2.2.2 Value.Undefined (fun _ => .ok (.Return (Value.Undefined))) rfl⟩

/-- C9: when a snippet compiles but its execution raises, `MontyRepl::feed`
still commits: the returned session carries the snippet's updated global
name map and intern tables, together with the heap and global namespace
exactly as the VM left them (no rollback), while the raised exception is
returned as the result. -/
theorem feed_commits_on_error {α β ε η ι μ : Type}
    (compile : String → ReplState α η ι → Except (Exc ε) (SnippetExecutor ι))
    (vmRun : SnippetExecutor ι → η → List (Value α) →
      Except (Exc ε) (FrameExit α β) × η × List (Value α))
    (getExtName osDisplay : Nat → String) (toObj : Value α → μ) (noneObj : μ)
    (st : ReplState α η ι) (code : String)
    (ex : SnippetExecutor ι) (err : Exc ε) (heap1 : η) (ns1 : List (Value α))
    (hcode : code ≠ "")
    (hcompile : compile code st = .ok ex)
    (hvm : vmRun ex st.heap (ensureGlobalNamespaceSize st.globalNs ex.namespaceSize) =
      (.error err, heap1, ns1)) :
    feed compile vmRun getExtName osDisplay toObj noneObj st code =
      ({ globalNameMap := ex.nameMap, interns := ex.interns,
         heap := heap1, globalNs := ns1 }, .error (intoPythonException err)) := by
  simp only [feed, if_neg hcode, hcompile, hvm]
  rfl

theorem feed_commits_on_error_witness :
    ("x = boom()" ≠ "") ∧
    witCompile "x = boom()" witReplState = .ok ⟨2, [("x", 0)], ()⟩ ∧
    feed witCompile witVmRun (fun _ => "f") (fun _ => "g") (fun _ => (0 : Nat)) 1
        witReplState "x = boom()" =
      (⟨[("x", 0)], (), (), [Value.Undefined, Value.Undefined]⟩,
        .error (intoPythonException (.runtimeError "boom"))) := by
  refine ⟨by decide, rfl, ?_⟩
  exact feed_commits_on_error witCompile witVmRun (fun _ => "f") (fun _ => "g")
    (fun _ => (0 : Nat)) 1 witReplState "x = boom()" ⟨2, [("x", 0)], ()⟩
    (.runtimeError "boom") () [Value.Undefined, Value.Undefined]
    (by decide) rfl rfl

/-- C10: `Executor::prepare_namespaces` (run by both `MontyRun::run` and
`MontyRun::start` before the VM starts) fails with the runtime error
"too many inputs for namespace" whenever the declared external functions
plus the supplied inputs outnumber the prepared namespace — and then
`Executor::run` returns that error whatever the VM would have done, i.e.
before any code executes.  Otherwise the namespace is laid out as
external-function values first, then the converted inputs in order, then
`Undefined` in every remaining slot; with a total conversion the converted
inputs are exactly the input list mapped in order. -/
theorem prepare_namespaces_layout {α β ε μ : Type} (ex : Executor α)
    (conv : α → Except String (Value α)) (inputs : List α) :
    (ex.namespaceSize < ex.externalFunctionIds.length + inputs.length →
      ex.prepareNamespaces (ε := ε) conv inputs =
        .error (.runtimeError "too many inputs for namespace") ∧
      ∀ (vmRunModule : List (Value α) → Except (Exc ε) (FrameExit α β))
        (getExtName osDisplay : Nat → String) (toObj : Value α → μ),
        ex.run conv vmRunModule getExtName osDisplay toObj inputs =
          .error (.runtimeError "too many inputs for namespace")) ∧
    (∀ vs, ex.externalFunctionIds.length + inputs.length ≤ ex.namespaceSize →
      prepareInputs (ε := ε) conv inputs = .ok vs →
      ex.prepareNamespaces (ε := ε) conv inputs =
        .ok (ex.externalFunctionIds.map Value.ExtFunction ++ vs ++
          List.replicate
            (ex.namespaceSize - (ex.externalFunctionIds.length + inputs.length))
            Value.Undefined)) ∧
    (∀ g : α → Value α, (∀ x, conv x = .ok (g x)) →
      prepareInputs (ε := ε) conv inputs = .ok (inputs.map g)) := by
  refine ⟨fun h => ⟨?_, fun vmRunModule getExtName osDisplay toObj => ?_⟩,
    fun vs hle hvs => ?_, fun g hg => ?_⟩
  · unfold Executor.prepareNamespaces
    rw [if_neg (by omega)]
  · unfold Executor.run Executor.prepareNamespaces
    rw [if_neg (by omega)]
  · unfold Executor.prepareNamespaces
    rw [if_pos hle, hvs]
  · induction inputs with
    | nil => rfl
    | cons x xs ih => simp [prepareInputs, hg x, ih]

theorem prepare_namespaces_layout_witness :
    ((1 : Nat) < 1 + 1 ∧
      Executor.prepareNamespaces (ε := Unit) (⟨1, [0]⟩ : Executor Unit) witConv [()] =
        .error (.runtimeError "too many inputs for namespace")) ∧
    (prepareInputs (ε := Unit) witConv [()] = .ok [Value.Conv ()] ∧
      (1 + 1 : Nat) ≤ 4 ∧
      Executor.prepareNamespaces (ε := Unit) (⟨4, [0]⟩ : Executor Unit) witConv [()] =
        .ok ([Value.ExtFunction 0] ++ [Value.Conv ()] ++
          List.replicate 2 Value.Undefined)) := by
  have h1 := (prepare_namespaces_layout (β := Unit) (ε := Unit) (μ := Unit)
    (⟨1, [0]⟩ : Executor Unit) witConv [()]).1 (by decide)
  have h2 := prepare_namespaces_layout (β := Unit) (ε := Unit) (μ := Unit)
    (⟨4, [0]⟩ : Executor Unit) witConv [()]
  have hin : prepareInputs (ε := Unit) witConv [()] = .ok [Value.Conv ()] :=
    h2.2.2 (fun _ => .Conv ()) (fun _ => rfl)
  exact ⟨⟨by decide, h1.1⟩, hin, by decide, h2.2.1 [Value.Conv ()] (by decide) hin⟩

end Run

end Monty
